import Mathlib

/-!
# Verification of the estimate-lifecycle / inventory-reservation core

A shallow embedding, over exact rationals, of the warehouse reservation,
reconciliation and synchronization logic of the RFE spray-foam application
(`src/hooks/useEstimates.ts`, `src/hooks/useSync.ts`, `src/hooks/useRealtime.ts`,
`src/services/database.ts`).  JavaScript numbers rounded with
`Number(x.toFixed(2))` are modelled as rationals rounded half-up to two
decimals; JS `Map`-based inventory diffing is modelled with association-list
folds preserving first-occurrence key order.
-/

namespace RFE

/-- `Number(x.toFixed(2))` modelled on exact rationals: round half-up to
two decimal places. -/
def round2 (x : ℚ) : ℚ := (⌊x * 100 + 1 / 2⌋ : ℤ) / 100

/-- The counter-adjustment arithmetic step shared by the reservation,
adjustment, deletion and reconciliation paths:
`Number((counter + delta).toFixed(2))` (useEstimates.ts 112-113 and
222-223, database.ts 367-368). -/
def fix2Step (counter delta : ℚ) : ℚ := round2 (counter + delta)

/-- `x` is an exact two-decimal (cent) quantity. -/
def IsCents (x : ℚ) : Prop := (100 * x).den = 1

instance (x : ℚ) : Decidable (IsCents x) := by unfold IsCents; infer_instance

/-! ## Data model (`src/types.ts`) -/

/-- Project-specific inventory line (`InventoryItem` in `src/types.ts`;
`id` and `unit` are omitted as no claim inspects them). -/
structure InventoryItem where
  name : String
  quantity : ℚ
  unitCost : ℚ
deriving DecidableEq

/-- Global warehouse item (`WarehouseItem` in `src/types.ts`). -/
structure WarehouseItem where
  name : String
  quantity : ℚ
  unitCost : ℚ
deriving DecidableEq

/-- The per-tenant warehouse: two foam counters plus named items
(`CalculatorState['warehouse']`). -/
structure Warehouse where
  openCellSets : ℚ
  closedCellSets : ℚ
  items : List WarehouseItem
deriving DecidableEq

/-- `materials.reserved` — the reservation baseline written at work-order
confirmation. -/
structure ReservedSnapshot where
  openCellSets : ℚ
  closedCellSets : ℚ
  inventory : List InventoryItem
deriving DecidableEq

/-- `EstimateRecord['materials']`, with the optional `reserved` sub-snapshot. -/
structure MaterialsSnapshot where
  openCellSets : ℚ
  closedCellSets : ℚ
  inventory : List InventoryItem
  reserved : Option ReservedSnapshot
deriving DecidableEq

/-- Commercial lifecycle status (`EstimateStatus` in `src/types.ts`). -/
inductive EstimateStatus
  | draft
  | workOrder
  | invoiced
  | paid
  | archived
deriving DecidableEq

/-- Field-execution status (`EstimateRecord['executionStatus']`). -/
inductive ExecutionStatus
  | notStarted
  | inProgress
  | completed
deriving DecidableEq

/-- Crew-reported actual usage (`EstimateRecord['actuals']`). -/
structure Actuals where
  openCellSets : ℚ
  closedCellSets : ℚ
  inventory : List InventoryItem
  laborHours : Option ℚ
  completedBy : String
deriving DecidableEq

/-- Immutable financial snapshot written at the Paid transition
(`FinancialSnapshot` in `src/types.ts`; `miscCost` is inlined into
`totalCOGS` exactly as in the code). -/
structure FinancialSnapshot where
  revenue : ℚ
  chemicalCost : ℚ
  laborCost : ℚ
  inventoryCost : ℚ
  totalCOGS : ℚ
  netProfit : ℚ
  margin : ℚ
deriving DecidableEq

/-- `EstimateExpenses` (`other.amount` flattened to `otherAmount`). -/
structure EstimateExpenses where
  manHours : ℚ
  laborRate : Option ℚ
  tripCharge : ℚ
  fuelSurcharge : ℚ
  otherAmount : ℚ
deriving DecidableEq

/-- The estimate aggregate, restricted to the fields the lifecycle /
reservation logic reads or writes. -/
structure EstimateRecord where
  id : String
  status : EstimateStatus
  executionStatus : ExecutionStatus
  materials : MaterialsSnapshot
  totalValue : ℚ
  expenses : EstimateExpenses
  actuals : Option Actuals
  financials : Option FinancialSnapshot
  workOrderSheetUrl : Option String
deriving DecidableEq

/-- JS truthiness fallback `v || d` on an optional number: `0` is falsy. -/
def jsOr (v : Option ℚ) (d : ℚ) : ℚ :=
  match v with
  | some r => if r = 0 then d else r
  | none => d

/-! ## Inventory diff machinery

`saveEstimate` (useEstimates.ts 82-100) and `completeJobInSupabase`
(database.ts 377-388) both build a JS `Map` keyed by item name, adding the
old/estimated quantities and subtracting the new/actual ones, then apply
each non-zero net diff to the first warehouse item with that name,
rounding to two decimals; names missing from the warehouse are skipped. -/

/-- Accumulated quantity carried by `name` in a project-inventory list
(the total a JS `Map` accumulates per key). -/
def qtySumI : List InventoryItem → String → ℚ
  | [], _ => 0
  | i :: rest, name =>
      (if i.name = name then i.quantity else 0) + qtySumI rest name

/-- JS `Map` key insertion: append a key if not yet present. -/
def insertName (acc : List String) (n : String) : List String :=
  if n ∈ acc then acc else acc ++ [n]

/-- The keys of the diff map, in `Map` insertion order (old list first). -/
def diffNames (old new : List InventoryItem) : List String :=
  ((old ++ new).map (·.name)).foldl insertName []

/-- `items[findIndex(i => i.name === name)].quantity = round2(q + diff)`:
update the first warehouse item named `name`; no-op when absent. -/
def updateItemQty : List WarehouseItem → String → ℚ → List WarehouseItem
  | [], _, _ => []
  | it :: rest, name, diff =>
      if it.name = name then
        { it with quantity := round2 (it.quantity + diff) } :: rest
      else
        it :: updateItemQty rest name diff

/-- Apply the old-minus-new inventory diff to the warehouse item list
(shared shape of useEstimates.ts 82-100 and database.ts 377-388). -/
def applyInventoryDiff (items : List WarehouseItem)
    (old new : List InventoryItem) : List WarehouseItem :=
  (diffNames old new).foldl
    (fun acc name =>
      let d := qtySumI old name - qtySumI new name
      if d = 0 then acc else updateItemQty acc name d)
    items

/-- Quantity of the first warehouse item carrying `name` (what JS
`findIndex`-based reads and writes address). -/
def itemQty (items : List WarehouseItem) (name : String) : Option ℚ :=
  (items.find? (fun i => i.name = name)).map (·.quantity)

/-! ## `saveEstimate` (`src/hooks/useEstimates.ts` 56-201) -/

/-- The fields of `CalculationResults` that `saveEstimate` /
`confirmWorkOrder` read. -/
structure CalcResults where
  openCellSets : ℚ
  closedCellSets : ℚ
  totalCost : ℚ
deriving DecidableEq

/-- The `extraData?: Partial<EstimateRecord>` override spread into the new
record (`...extraData`, useEstimates.ts 161): `none` = key absent. -/
structure ExtraData where
  materials : Option MaterialsSnapshot
  status : Option EstimateStatus
  executionStatus : Option ExecutionStatus
  actuals : Option Actuals
  financials : Option FinancialSnapshot
  workOrderSheetUrl : Option String
deriving DecidableEq

/-- An `extraData` argument that is absent / empty. -/
def noExtra : ExtraData := ⟨none, none, none, none, none, none⟩

/-- `saveEstimate`: local-state effect on the warehouse and the rebuilt
estimate record.  Returns `none` when the customer-name guard rejects the
save (useEstimates.ts 57-60).  Persistence calls are fire-and-forget and
do not affect this state. -/
def saveEstimateCore (customerName : String) (existing : Option EstimateRecord)
    (estimateId : String) (results : CalcResults)
    (inventory : List InventoryItem) (expenses : EstimateExpenses)
    (warehouse : Warehouse) (targetStatus : Option EstimateStatus)
    (extra : ExtraData) : Option (Warehouse × EstimateRecord) :=
  if customerName = "" then none
  else
    let newStatus :=
      targetStatus.getD ((existing.map (·.status)).getD .draft)
    let existingReserved := existing.bind (·.materials.reserved)
    -- prep item inventory diff (return old items, deduct new items)
    let oldInventory := (existing.map (·.materials.inventory)).getD []
    let w1 : Warehouse :=
      { warehouse with items := applyInventoryDiff warehouse.items oldInventory inventory }
    -- foam delta for editing an existing active Work Order; skipped when
    -- extraData provides materials (confirmWorkOrder owns that)
    let foamStep : Warehouse × Option ReservedSnapshot :=
      match existingReserved, existing with
      | some r, some ex =>
          if ex.status = .workOrder ∧ ex.executionStatus ≠ .completed
              ∧ extra.materials = none then
            let openDelta := r.openCellSets - results.openCellSets
            let closedDelta := r.closedCellSets - results.closedCellSets
            if openDelta ≠ 0 ∨ closedDelta ≠ 0 then
              ({ w1 with
                  openCellSets := round2 (w1.openCellSets + openDelta),
                  closedCellSets := round2 (w1.closedCellSets + closedDelta) },
               some ⟨results.openCellSets, results.closedCellSets, inventory⟩)
            else (w1, some r)
          else (w1, some r)
      | _, _ => (w1, existingReserved)
    let w2 := foamStep.1
    let updatedReserved := foamStep.2
    let record : EstimateRecord :=
      { id := estimateId
        status := extra.status.getD newStatus
        executionStatus :=
          extra.executionStatus.getD
            ((existing.map (·.executionStatus)).getD .notStarted)
        materials :=
          extra.materials.getD
            ⟨results.openCellSets, results.closedCellSets, inventory, updatedReserved⟩
        totalValue := results.totalCost
        expenses := expenses
        actuals :=
          match extra.actuals with
          | some a => some a
          | none => existing.bind (·.actuals)
        financials :=
          match extra.financials with
          | some f => some f
          | none => existing.bind (·.financials)
        workOrderSheetUrl :=
          match extra.workOrderSheetUrl with
          | some u => some u
          | none => existing.bind (·.workOrderSheetUrl) }
    some (w2, record)

/-! ## `confirmWorkOrder` (`src/hooks/useEstimates.ts` 342-425) -/

/-- `confirmWorkOrder`: `none` means the user cancelled at the shortage
prompt (no state change).  Otherwise returns the resulting warehouse and
the saved record (`none` record when the inner save was rejected; for a
new work order the foam deduction has then already been dispatched). -/
def confirmWorkOrderCore (customerName : String)
    (existing : Option EstimateRecord) (estimateId : String)
    (results : CalcResults) (inventory : List InventoryItem)
    (expenses : EstimateExpenses) (warehouse : Warehouse)
    (proceedOnShortage : Bool) :
    Option (Warehouse × Option EstimateRecord) :=
  let isAlreadySold : Bool :=
    match existing with
    | some ex =>
        ex.status = EstimateStatus.workOrder ∨ ex.status = .invoiced ∨ ex.status = .paid
    | none => false
  if isAlreadySold then
    -- no extraData: saveEstimate's foam-delta logic handles reconciliation
    match saveEstimateCore customerName existing estimateId results inventory
        expenses warehouse (some .workOrder) noExtra with
    | some (w, r) => some (w, some r)
    | none => some (warehouse, none)
  else
    let requiredOpen := results.openCellSets
    let requiredClosed := results.closedCellSets
    let shortage :=
      requiredOpen > warehouse.openCellSets ∨ requiredClosed > warehouse.closedCellSets
    if shortage ∧ proceedOnShortage = false then none
    else
      -- deduct inventory (allow negatives)
      let w1 : Warehouse :=
        { warehouse with
            openCellSets := round2 (warehouse.openCellSets - requiredOpen),
            closedCellSets := round2 (warehouse.closedCellSets - requiredClosed) }
      -- pass materials + reservation so saveEstimate persists it atomically
      let extra : ExtraData :=
        { materials :=
            some ⟨results.openCellSets, results.closedCellSets, inventory,
                  some ⟨requiredOpen, requiredClosed, inventory⟩⟩
          status := none, executionStatus := none, actuals := none
          financials := none, workOrderSheetUrl := none }
      match saveEstimateCore customerName existing estimateId results inventory
          expenses w1 (some .workOrder) extra with
      | some (w2, r) => some (w2, some r)
      | none => some (w1, none)

/-! ## `handleDeleteEstimate` (`src/hooks/useEstimates.ts` 203-288) -/

/-- Per-item compensation: `forEach` over a reservation/materials inventory
list, adding each quantity to the first matching warehouse item. -/
def returnItems (items : List WarehouseItem)
    (inv : List InventoryItem) : List WarehouseItem :=
  inv.foldl (fun acc it => updateItemQty acc it.name it.quantity) items

/-- `handleDeleteEstimate`: warehouse compensation performed before the
record is removed. -/
def handleDeleteCore (est : Option EstimateRecord) (warehouse : Warehouse) :
    Warehouse :=
  match est with
  | none => warehouse
  | some e =>
      if e.status = .workOrder ∧ e.executionStatus ≠ .completed then
        match e.materials.reserved with
        | some r =>
            -- return exactly what was reserved (foam sets + prep items)
            let w1 :=
              if r.openCellSets > 0 ∨ r.closedCellSets > 0 then
                { warehouse with
                    openCellSets := round2 (warehouse.openCellSets + r.openCellSets),
                    closedCellSets := round2 (warehouse.closedCellSets + r.closedCellSets) }
              else warehouse
            { w1 with items := returnItems w1.items r.inventory }
        | none =>
            -- backward compat: return prep items from materials only
            { warehouse with
                items := returnItems warehouse.items e.materials.inventory }
      else warehouse

/-! ## `completeJobInSupabase` (`src/services/database.ts` 339-448) -/

/-- Pass/fail outcome of each remote persistence call the completion
function makes, in call order. -/
structure RemoteOutcomes where
  estimateUpdateOk : Bool
  foamStockOk : Bool
  itemsSyncOk : Bool
  logsInsertOk : Bool
deriving DecidableEq

/-- One row inserted into `material_logs`. -/
structure LogRow where
  materialName : String
  quantity : ℚ
  unit : String
deriving DecidableEq

/-- Return value of `completeJobInSupabase` plus the usage-log rows it
inserts. -/
structure CompleteResult where
  success : Bool
  updatedWarehouse : Warehouse
  logs : List LogRow
deriving DecidableEq

/-- `completeJobInSupabase`: the estimate-update failure aborts with the
pre-reconciliation warehouse; the foam-stock, item-sync and log-insert
outcomes are awaited but their results are never inspected. -/
def completeJobCore (outcomes : RemoteOutcomes) (actuals : Actuals)
    (estimatedMaterials : MaterialsSnapshot)
    (currentWarehouse : Warehouse) : CompleteResult :=
  if outcomes.estimateUpdateOk = false then
    ⟨false, currentWarehouse, []⟩
  else
    -- baseline = estimatedMaterials.reserved ?? estimatedMaterials
    let baselineOpen :=
      match estimatedMaterials.reserved with
      | some r => r.openCellSets
      | none => estimatedMaterials.openCellSets
    let baselineClosed :=
      match estimatedMaterials.reserved with
      | some r => r.closedCellSets
      | none => estimatedMaterials.closedCellSets
    let ocDelta := baselineOpen - actuals.openCellSets
    let ccDelta := baselineClosed - actuals.closedCellSets
    let newOpen := round2 (currentWarehouse.openCellSets + ocDelta)
    let newClosed := round2 (currentWarehouse.closedCellSets + ccDelta)
    -- (updateFoamStock result — outcomes.foamStockOk — is ignored)
    let estimatedInv :=
      match estimatedMaterials.reserved with
      | some r => r.inventory
      | none => estimatedMaterials.inventory
    let updatedItems :=
      applyInventoryDiff currentWarehouse.items estimatedInv actuals.inventory
    let foamLogs : List LogRow :=
      (if actuals.openCellSets > 0 then
        [⟨"Open Cell Sets", actuals.openCellSets, "Sets"⟩] else []) ++
      (if actuals.closedCellSets > 0 then
        [⟨"Closed Cell Sets", actuals.closedCellSets, "Sets"⟩] else [])
    let itemLogs : List LogRow :=
      (actuals.inventory.filter (fun i => i.quantity > 0)).map
        (fun i => ⟨i.name, i.quantity, "Units"⟩)
    -- (material_logs insert and syncWarehouseItems results are ignored too)
    ⟨true, ⟨newOpen, newClosed, updatedItems⟩, foamLogs ++ itemLogs⟩

/-! ## `markEstimatePaid` (`src/services/database.ts` 265-333) -/

/-- Tenant cost settings (`CalculatorState['costs']`). -/
structure Costs where
  openCell : ℚ
  closedCell : ℚ
  laborRate : ℚ
deriving DecidableEq

/-- The P&L computation of the Supabase `markEstimatePaid` (database.ts
273-295): every line reads the estimate's `materials` / `expenses`
snapshots. -/
def markEstimatePaidFinancials (costs : Costs) (estimate : EstimateRecord) :
    FinancialSnapshot :=
  let revenue := estimate.totalValue
  let chemCost :=
    estimate.materials.openCellSets * costs.openCell +
    estimate.materials.closedCellSets * costs.closedCell
  let laborCost :=
    estimate.expenses.manHours * jsOr estimate.expenses.laborRate costs.laborRate
  let inventoryCost :=
    estimate.materials.inventory.foldl (fun s i => s + i.quantity * i.unitCost) 0
  let miscCost :=
    estimate.expenses.tripCharge + estimate.expenses.fuelSurcharge +
    estimate.expenses.otherAmount
  let totalCOGS := chemCost + laborCost + inventoryCost + miscCost
  let netProfit := revenue - totalCOGS
  let margin := if revenue > 0 then netProfit / revenue else 0
  ⟨revenue, chemCost, laborCost, inventoryCost, totalCOGS, netProfit, margin⟩

/-! ## Legacy backend `handleMarkJobPaid`
(Apps Script appended to `src/hooks/useRealtime.ts`, lines 774-813) -/

/-- The legacy P&L computation: `const act = est.actuals || est.materials`
prefers the crew actuals snapshot when present. -/
def legacyMarkJobPaidFinancials (costs : Costs) (est : EstimateRecord) :
    FinancialSnapshot :=
  let revenue := est.totalValue
  let finish := fun (oc cc : ℚ) (labHrs : ℚ) (inv : List InventoryItem) =>
    let chemCost := oc * costs.openCell + cc * costs.closedCell
    let labCost := labHrs * jsOr est.expenses.laborRate costs.laborRate
    let invCost := inv.foldl (fun s i => s + i.quantity * i.unitCost) 0
    let misc := est.expenses.tripCharge + est.expenses.fuelSurcharge
    let totalCOGS := chemCost + labCost + invCost + misc
    (⟨revenue, chemCost, labCost, invCost, totalCOGS, revenue - totalCOGS,
      if revenue = 0 then 0 else (revenue - totalCOGS) / revenue⟩ : FinancialSnapshot)
  match est.actuals with
  | some a =>
      finish a.openCellSets a.closedCellSets
        (jsOr a.laborHours est.expenses.manHours) a.inventory
  | none =>
      finish est.materials.openCellSets est.materials.closedCellSets
        est.expenses.manHours est.materials.inventory

/-! ## Bulk-sync estimate merge
(legacy backend `syncEstimatesWithLogic`, useRealtime.ts lines 652-676) -/

/-- Per-pair merge of an incoming payload estimate over the existing db
record with the same id: only `Completed` execution status and `Paid`
commercial status are pinned; everything else comes from the incoming
record. -/
def mergeIncoming (existing incoming : EstimateRecord) : EstimateRecord :=
  let exec :=
    if existing.executionStatus = .completed
        ∧ incoming.executionStatus ≠ .completed then
      ExecutionStatus.completed
    else incoming.executionStatus
  let st :=
    if existing.status = .paid ∧ incoming.status ≠ .paid then
      EstimateStatus.paid
    else incoming.status
  { incoming with executionStatus := exec, status := st }

/-- JS `Map.set` on an id-keyed association list: replace in place when the
id is present, append otherwise. -/
def mapSet (m : List EstimateRecord) (e : EstimateRecord) :
    List EstimateRecord :=
  if m.any (fun x => x.id = e.id) then
    m.map (fun x => if x.id = e.id then e else x)
  else m ++ [e]

/-- One payload estimate folded into the db map: merge via `mergeIncoming`
when a record with the same id exists, insert otherwise. -/
def syncStep (m : List EstimateRecord) (inc : EstimateRecord) :
    List EstimateRecord :=
  match m.find? (fun x => x.id = inc.id) with
  | some ex => mapSet m (mergeIncoming ex inc)
  | none => mapSet m inc

/-- `syncEstimatesWithLogic`: fold every payload estimate into the db map. -/
def syncEstimatesWithLogic (db payload : List EstimateRecord) :
    List EstimateRecord :=
  payload.foldl syncStep db

/-- Commercial-axis rank used by the claim's monotonicity statement
(Draft < Work Order < Invoiced < Paid). -/
def statusRank : EstimateStatus → ℕ
  | .draft => 0
  | .workOrder => 1
  | .invoiced => 2
  | .paid => 3
  | .archived => 4

/-! ## Synchronization coordinator gates (`src/hooks/useSync.ts`) -/

inductive Role
  | admin
  | crew
deriving DecidableEq

/-- The session fields the sync gates read (`UserSession`). -/
structure Session where
  companyId : Option String
  spreadsheetId : Option String
  role : Role
deriving DecidableEq

/-- Whether the auto-sync effect (useSync.ts 97-134) reaches the point of
scheduling the debounced full push. -/
def autoSyncSchedulesPush (isLoading isInitialized : Bool)
    (session : Option Session) (stateChanged : Bool) : Bool :=
  match session with
  | none => false
  | some s =>
      if isLoading = true ∨ isInitialized = false then false
      else if s.spreadsheetId = none ∧ s.companyId = none then false
      else if s.role = .crew then false
      else stateChanged

/-- The two bulk-push transports. -/
inductive PushPath
  | supabaseFull
  | legacySyncUp
deriving DecidableEq

/-- Which full-state push `handleManualSync` (useSync.ts 137-159) performs;
it has no role gate. -/
def manualSyncPush (session : Option Session) : Option PushPath :=
  match session with
  | none => none
  | some s =>
      match s.companyId with
      | some _ => some .supabaseFull
      | none =>
          match s.spreadsheetId with
          | some _ => some .legacySyncUp
          | none => none

/-! ## `createPurchaseOrder` (`src/hooks/useEstimates.ts` 427-460) -/

inductive POItemType
  | openCell
  | closedCell
  | inventory
deriving DecidableEq

/-- One purchase-order line item. -/
structure POItem where
  itemType : POItemType
  inventoryId : Option String
  quantity : ℚ
deriving DecidableEq

/-- Warehouse item list extended with ids for the PO receipt path, which
looks items up by id (useEstimates.ts 434). -/
structure WarehouseItemId where
  id : String
  name : String
  quantity : ℚ
deriving DecidableEq

/-- A warehouse with id-carrying items, as the PO receipt path sees it. -/
structure WarehouseId where
  openCellSets : ℚ
  closedCellSets : ℚ
  items : List WarehouseItemId
deriving DecidableEq

/-- `invItem.quantity += item.quantity` on the first item with the id:
note no `toFixed` anywhere on this path. -/
def addQtyById : List WarehouseItemId → String → ℚ → List WarehouseItemId
  | [], _, _ => []
  | it :: rest, iid, q =>
      if it.id = iid then { it with quantity := it.quantity + q } :: rest
      else it :: addQtyById rest iid q

/-- `createPurchaseOrder`: stock added to the warehouse at PO receipt,
with raw (unrounded) addition on every counter. -/
def createPurchaseOrderWarehouse (w : WarehouseId) (items : List POItem) :
    WarehouseId :=
  items.foldl
    (fun acc it =>
      match it.itemType with
      | .openCell => { acc with openCellSets := acc.openCellSets + it.quantity }
      | .closedCell => { acc with closedCellSets := acc.closedCellSets + it.quantity }
      | .inventory =>
          match it.inventoryId with
          | some iid => { acc with items := addQtyById acc.items iid it.quantity }
          | none => acc)
    w

/-! ## Foam-counter reservation ledger

The lifecycle of one estimate's foam reservation against the warehouse
counters, assembled from the foam-counter effects of `confirmWorkOrder`
(reserve), `saveEstimate` (adjust), `handleDeleteEstimate` (release) and
`completeJobInSupabase` (reconcile).  Bridging lemmas below prove each
step equal to the corresponding function's counter effect. -/

/-- Where the estimate stands with respect to its reservation. -/
inductive LedgerPhase
  | active (reservedOpen reservedClosed : ℚ)
  | completed (actualOpen actualClosed : ℚ)
  | released
deriving DecidableEq

/-- Warehouse foam counters plus the estimate's reservation phase. -/
structure FoamLedgerState where
  openCellSets : ℚ
  closedCellSets : ℚ
  phase : LedgerPhase
deriving DecidableEq

/-- The ledger operations after the initial reserve. -/
inductive LedgerOp
  | adjust (newOpen newClosed : ℚ)
  | release
  | reconcile (actualOpen actualClosed : ℚ)
deriving DecidableEq

/-- Work-order confirmation: deduct the required sets (allowing negatives)
and record them as the reservation baseline (useEstimates.ts 370-384). -/
def reserveFoam (requiredOpen requiredClosed wOpen wClosed : ℚ) :
    FoamLedgerState :=
  ⟨round2 (wOpen - requiredOpen), round2 (wClosed - requiredClosed),
   .active requiredOpen requiredClosed⟩

/-- One ledger step:
* `adjust` — `saveEstimate`'s foam-delta block (useEstimates.ts 104-123):
  apply `reserved - new` when non-zero and move the baseline;
* `release` — `handleDeleteEstimate`'s foam return (useEstimates.ts 216-226);
* `reconcile` — `completeJobInSupabase`'s delta (database.ts 363-370). -/
def ledgerStep (s : FoamLedgerState) : LedgerOp → FoamLedgerState
  | .adjust nOpen nClosed =>
      match s.phase with
      | .active rOpen rClosed =>
          let openDelta := rOpen - nOpen
          let closedDelta := rClosed - nClosed
          if openDelta ≠ 0 ∨ closedDelta ≠ 0 then
            ⟨round2 (s.openCellSets + openDelta),
             round2 (s.closedCellSets + closedDelta), .active nOpen nClosed⟩
          else s
      | _ => s
  | .release =>
      match s.phase with
      | .active rOpen rClosed =>
          if rOpen > 0 ∨ rClosed > 0 then
            ⟨round2 (s.openCellSets + rOpen), round2 (s.closedCellSets + rClosed),
             .released⟩
          else ⟨s.openCellSets, s.closedCellSets, .released⟩
      | _ => s
  | .reconcile aOpen aClosed =>
      match s.phase with
      | .active rOpen rClosed =>
          ⟨round2 (s.openCellSets + (rOpen - aOpen)),
           round2 (s.closedCellSets + (rClosed - aClosed)),
           .completed aOpen aClosed⟩
      | _ => s

/-- Run a sequence of ledger operations. -/
def runLedger (s : FoamLedgerState) (ops : List LedgerOp) : FoamLedgerState :=
  ops.foldl ledgerStep s

/-- The open-cell quantity still withdrawn from the warehouse on the
estimate's account. -/
def outstandingOpen : LedgerPhase → ℚ
  | .active r _ => r
  | .completed a _ => a
  | .released => 0

/-- Closed-cell analogue of `outstandingOpen`. -/
def outstandingClosed : LedgerPhase → ℚ
  | .active _ r => r
  | .completed _ a => a
  | .released => 0

/-- Side conditions under which an operation's quantities respect the
two-decimal numeric policy (and reservations stay non-negative, as every
required quantity in the app is). -/
def OpOK : LedgerOp → Prop
  | .adjust nOpen nClosed =>
      IsCents nOpen ∧ 0 ≤ nOpen ∧ IsCents nClosed ∧ 0 ≤ nClosed
  | .release => True
  | .reconcile aOpen aClosed => IsCents aOpen ∧ IsCents aClosed

instance (op : LedgerOp) : Decidable (OpOK op) := by
  cases op <;> unfold OpOK <;> infer_instance

/-- Phase payloads respect the numeric policy. -/
def PhaseOK : LedgerPhase → Prop
  | .active rOpen rClosed => IsCents rOpen ∧ 0 ≤ rOpen ∧ IsCents rClosed ∧ 0 ≤ rClosed
  | .completed aOpen aClosed => IsCents aOpen ∧ IsCents aClosed
  | .released => True

/-- The conservation invariant: counters are exact cents and sit exactly
`outstanding` below their initial values. -/
def LedgerInv (w0Open w0Closed : ℚ) (s : FoamLedgerState) : Prop :=
  IsCents s.openCellSets ∧ IsCents s.closedCellSets ∧ PhaseOK s.phase ∧
  s.openCellSets = w0Open - outstandingOpen s.phase ∧
  s.closedCellSets = w0Closed - outstandingClosed s.phase

/-! ## Concrete records used by witnesses and counterexamples -/

/-- A minimal draft estimate used as a template for concrete scenarios. -/
def baseEstimate : EstimateRecord :=
  { id := "e1"
    status := .draft
    executionStatus := .notStarted
    materials := ⟨0, 0, [], none⟩
    totalValue := 0
    expenses := ⟨0, none, 0, 0, 0⟩
    actuals := none
    financials := none
    workOrderSheetUrl := none }

/-- The deletion-compensation scenario of the claim: an active work order
with reserved `{openCellSets 5, closedCellSets 2, tape 3}`. -/
def cexDeleteEstimate : EstimateRecord :=
  { baseEstimate with
      status := .workOrder
      materials := ⟨5, 2, [⟨"tape", 3, 0⟩], some ⟨5, 2, [⟨"tape", 3, 0⟩]⟩⟩ }

/-- Warehouse `{openCellSets 1, closedCellSets 1, tape 0}`. -/
def cexDeleteWarehouse : Warehouse := ⟨1, 1, [⟨"tape", 0, 0⟩]⟩

/-- An active work order whose reservation inventory (`tape 3`) has
drifted from its materials snapshot (`tape 4`) after an item-only edit. -/
def cexReconfirmExisting : EstimateRecord :=
  { baseEstimate with
      status := .workOrder
      materials := ⟨5, 2, [⟨"tape", 4, 0⟩], some ⟨5, 2, [⟨"tape", 3, 0⟩]⟩⟩ }

/-- An active work order whose reservation matches its materials snapshot
(`tape 4`, foam 5/2). -/
def cexReconfirmWO : EstimateRecord :=
  { baseEstimate with
      status := .workOrder
      materials := ⟨5, 2, [⟨"tape", 4, 0⟩], some ⟨5, 2, [⟨"tape", 4, 0⟩]⟩⟩ }

/-- An in-progress work order carrying crew-written fields: execution
status In Progress, actuals, a financial snapshot and a sheet URL. -/
def cexFramedEstimate : EstimateRecord :=
  { baseEstimate with
      status := .workOrder
      executionStatus := .inProgress
      actuals := some ⟨2, 1, [], some 8, "crew"⟩
      financials := some ⟨1000, 100, 200, 50, 350, 650, 65 / 100⟩
      workOrderSheetUrl := some "https://sheets.example/wo-1" }

/-- An estimate with materials 4.0 open-cell sets and crew actuals of
4.5 open-cell sets (the §8 lifecycle scenario of the spec). -/
def cexPaidEstimate : EstimateRecord :=
  { baseEstimate with
      materials := ⟨4, 0, [], none⟩
      actuals := some ⟨9 / 2, 0, [], none, "crew"⟩ }

theorem isCents_iff (x : ℚ) : IsCents x ↔ ∃ n : ℤ, x = (n : ℚ) / 100 := by
  constructor
  · intro h
    refine ⟨(100 * x).num, ?_⟩
    have h100 : ((100 * x).num : ℚ) = 100 * x := by
      exact_mod_cast (Rat.den_eq_one_iff _).mp h
    rw [h100]; ring
  · rintro ⟨n, rfl⟩
    have : (100 : ℚ) * ((n : ℚ) / 100) = (n : ℚ) := by ring
    unfold IsCents
    rw [this, Rat.den_intCast]

theorem IsCents.add {x y : ℚ} (hx : IsCents x) (hy : IsCents y) :
    IsCents (x + y) := by
  rw [isCents_iff] at *
  obtain ⟨m, rfl⟩ := hx
  obtain ⟨n, rfl⟩ := hy
  exact ⟨m + n, by push_cast; ring⟩

theorem IsCents.neg {x : ℚ} (hx : IsCents x) : IsCents (-x) := by
  rw [isCents_iff] at *
  obtain ⟨m, rfl⟩ := hx
  exact ⟨-m, by push_cast; ring⟩

theorem IsCents.sub {x y : ℚ} (hx : IsCents x) (hy : IsCents y) :
    IsCents (x - y) := by
  have := hx.add hy.neg
  simpa [sub_eq_add_neg] using this

theorem isCents_round2 (x : ℚ) : IsCents (round2 x) := by
  rw [isCents_iff]
  exact ⟨⌊x * 100 + 1 / 2⌋, rfl⟩

/-- Rounding is the identity on exact two-decimal quantities. -/
theorem round2_eq_self {x : ℚ} (hx : IsCents x) : round2 x = x := by
  rw [isCents_iff] at hx
  obtain ⟨n, rfl⟩ := hx
  unfold round2
  have harg : (n : ℚ) / 100 * 100 + 1 / 2 = (n : ℚ) + 1 / 2 := by ring
  rw [harg]
  have hfloor : ⌊(n : ℚ) + 1 / 2⌋ = n := by
    rw [add_comm, Int.floor_add_int]
    norm_num
  rw [hfloor]

theorem ledgerStep_inv {w0Open w0Closed : ℚ} {s : FoamLedgerState}
    (hs : LedgerInv w0Open w0Closed s) {op : LedgerOp} (hop : OpOK op) :
    LedgerInv w0Open w0Closed (ledgerStep s op) := by
  obtain ⟨hoc, hcc, hph, heqo, heqc⟩ := hs
  cases op with
  | adjust nOpen nClosed =>
      obtain ⟨hno, hno0, hnc, hnc0⟩ := hop
      cases hphase : s.phase with
      | active rOpen rClosed =>
          obtain ⟨hro, hro0, hrc, hrc0⟩ := hphase ▸ hph
          rw [hphase] at heqo heqc
          simp only [ledgerStep, hphase]
          by_cases hd : rOpen - nOpen ≠ 0 ∨ rClosed - nClosed ≠ 0
          · simp only [hd, if_pos]
            have h1 : IsCents (s.openCellSets + (rOpen - nOpen)) :=
              hoc.add (hro.sub hno)
            have h2 : IsCents (s.closedCellSets + (rClosed - nClosed)) :=
              hcc.add (hrc.sub hnc)
            refine ⟨?_, ?_, ⟨hno, hno0, hnc, hnc0⟩, ?_, ?_⟩
            · exact isCents_round2 _
            · exact isCents_round2 _
            · rw [round2_eq_self h1, heqo]; simp [outstandingOpen]
            · rw [round2_eq_self h2, heqc]; simp [outstandingClosed]
          · simp only [hd, if_neg, not_false_iff]
            push_neg at hd
            obtain ⟨hdo, hdc⟩ := hd
            have hon : rOpen = nOpen := by linarith [sub_eq_zero.mp hdo]
            have hcn : rClosed = nClosed := by linarith [sub_eq_zero.mp hdc]
            exact ⟨hoc, hcc, hphase ▸ hph,
              by rw [heqo, hphase], by rw [heqc, hphase]⟩
      | completed aOpen aClosed =>
          simp only [ledgerStep, hphase]
          exact ⟨hoc, hcc, hphase ▸ hph, hphase ▸ heqo, hphase ▸ heqc⟩
      | released =>
          simp only [ledgerStep, hphase]
          exact ⟨hoc, hcc, hphase ▸ hph, hphase ▸ heqo, hphase ▸ heqc⟩
  | release =>
      cases hphase : s.phase with
      | active rOpen rClosed =>
          obtain ⟨hro, hro0, hrc, hrc0⟩ := hphase ▸ hph
          rw [hphase] at heqo heqc
          simp only [ledgerStep, hphase]
          by_cases hpos : rOpen > 0 ∨ rClosed > 0
          · simp only [hpos, if_pos]
            refine ⟨isCents_round2 _, isCents_round2 _, trivial, ?_, ?_⟩
            · rw [round2_eq_self (hoc.add hro), heqo]
              simp [outstandingOpen]
            · rw [round2_eq_self (hcc.add hrc), heqc]
              simp [outstandingClosed]
          · simp only [hpos, if_neg, not_false_iff]
            push_neg at hpos
            have h0o : rOpen = 0 := le_antisymm hpos.1 hro0
            have h0c : rClosed = 0 := le_antisymm hpos.2 hrc0
            refine ⟨hoc, hcc, trivial, ?_, ?_⟩
            · rw [heqo, h0o]; simp [outstandingOpen]
            · rw [heqc, h0c]; simp [outstandingClosed]
      | completed aOpen aClosed =>
          simp only [ledgerStep, hphase]
          exact ⟨hoc, hcc, hphase ▸ hph, hphase ▸ heqo, hphase ▸ heqc⟩
      | released =>
          simp only [ledgerStep, hphase]
          exact ⟨hoc, hcc, hphase ▸ hph, hphase ▸ heqo, hphase ▸ heqc⟩
  | reconcile aOpen aClosed =>
      obtain ⟨hao, hac⟩ := hop
      cases hphase : s.phase with
      | active rOpen rClosed =>
          obtain ⟨hro, hro0, hrc, hrc0⟩ := hphase ▸ hph
          rw [hphase] at heqo heqc
          simp only [ledgerStep, hphase]
          refine ⟨isCents_round2 _, isCents_round2 _, ⟨hao, hac⟩, ?_, ?_⟩
          · rw [round2_eq_self (hoc.add (hro.sub hao)), heqo]
            simp [outstandingOpen]
          · rw [round2_eq_self (hcc.add (hrc.sub hac)), heqc]
            simp [outstandingClosed]
      | completed a b =>
          simp only [ledgerStep, hphase]
          exact ⟨hoc, hcc, hphase ▸ hph, hphase ▸ heqo, hphase ▸ heqc⟩
      | released =>
          simp only [ledgerStep, hphase]
          exact ⟨hoc, hcc, hphase ▸ hph, hphase ▸ heqo, hphase ▸ heqc⟩

theorem runLedger_inv {w0Open w0Closed : ℚ} {s : FoamLedgerState}
    (hs : LedgerInv w0Open w0Closed s) {ops : List LedgerOp}
    (hops : ∀ op ∈ ops, OpOK op) :
    LedgerInv w0Open w0Closed (runLedger s ops) := by
  induction ops generalizing s with
  | nil => exact hs
  | cons op rest ih =>
      have h1 : LedgerInv w0Open w0Closed (ledgerStep s op) :=
        ledgerStep_inv hs (hops op (List.mem_cons_self _ _))
      exact ih h1 (fun o ho => hops o (List.mem_cons_of_mem _ ho))

/-! ### Bridging lemmas: ledger steps agree with the embedded functions -/

/-- Confirming a brand-new work order changes the foam counters exactly as
`reserveFoam` and stores that baseline on the record. -/
theorem confirmWorkOrder_new_matches_reserveFoam
    (customerName : String) (hname : ¬ customerName = "")
    (estimateId : String) (results : CalcResults)
    (inventory : List InventoryItem) (expenses : EstimateExpenses)
    (warehouse : Warehouse) :
    (confirmWorkOrderCore customerName none estimateId results inventory
        expenses warehouse true).map
        (fun p => (p.1.openCellSets, p.1.closedCellSets,
          p.2.map (fun rec => rec.materials.reserved)))
      = some
          ((reserveFoam results.openCellSets results.closedCellSets
              warehouse.openCellSets warehouse.closedCellSets).openCellSets,
           (reserveFoam results.openCellSets results.closedCellSets
              warehouse.openCellSets warehouse.closedCellSets).closedCellSets,
           some (some ⟨results.openCellSets, results.closedCellSets, inventory⟩)) := by
  simp [confirmWorkOrderCore, saveEstimateCore, hname, reserveFoam]

/-- Saving an edit of an active reserved work order changes the foam
counters exactly as the ledger `adjust` step. -/
theorem saveEstimate_edit_matches_adjust
    (customerName : String) (hname : ¬ customerName = "")
    (ex : EstimateRecord) (r : ReservedSnapshot)
    (hres : ex.materials.reserved = some r)
    (hst : ex.status = .workOrder) (hexec : ex.executionStatus ≠ .completed)
    (estimateId : String) (results : CalcResults)
    (inventory : List InventoryItem) (expenses : EstimateExpenses)
    (warehouse : Warehouse) (targetStatus : Option EstimateStatus) :
    (saveEstimateCore customerName (some ex) estimateId results inventory
        expenses warehouse targetStatus noExtra).map
        (fun p => (p.1.openCellSets, p.1.closedCellSets))
      = some
          ((ledgerStep ⟨warehouse.openCellSets, warehouse.closedCellSets,
              .active r.openCellSets r.closedCellSets⟩
              (.adjust results.openCellSets results.closedCellSets)).openCellSets,
           (ledgerStep ⟨warehouse.openCellSets, warehouse.closedCellSets,
              .active r.openCellSets r.closedCellSets⟩
              (.adjust results.openCellSets results.closedCellSets)).closedCellSets) := by
  by_cases hd : r.openCellSets - results.openCellSets ≠ 0
      ∨ r.closedCellSets - results.closedCellSets ≠ 0 <;>
    simp [saveEstimateCore, ledgerStep, hname, hres, hst, hexec, noExtra, hd]

/-- Hard-deleting an active reserved work order changes the foam counters
exactly as the ledger `release` step. -/
theorem handleDelete_matches_release
    (e : EstimateRecord) (r : ReservedSnapshot)
    (hres : e.materials.reserved = some r)
    (hst : e.status = .workOrder) (hexec : e.executionStatus ≠ .completed)
    (warehouse : Warehouse) :
    (handleDeleteCore (some e) warehouse).openCellSets
        = (ledgerStep ⟨warehouse.openCellSets, warehouse.closedCellSets,
            .active r.openCellSets r.closedCellSets⟩ .release).openCellSets
    ∧ (handleDeleteCore (some e) warehouse).closedCellSets
        = (ledgerStep ⟨warehouse.openCellSets, warehouse.closedCellSets,
            .active r.openCellSets r.closedCellSets⟩ .release).closedCellSets := by
  by_cases hpos : r.openCellSets > 0 ∨ r.closedCellSets > 0 <;>
    simp [handleDeleteCore, ledgerStep, returnItems, hres, hst, hexec, hpos]

/-- Crew completion changes the foam counters exactly as the ledger
`reconcile` step (reserved baseline present). -/
theorem completeJob_matches_reconcile
    (outcomes : RemoteOutcomes) (hok : outcomes.estimateUpdateOk = true)
    (a : Actuals) (em : MaterialsSnapshot) (r : ReservedSnapshot)
    (hres : em.reserved = some r) (w : Warehouse) :
    (completeJobCore outcomes a em w).updatedWarehouse.openCellSets
        = (ledgerStep ⟨w.openCellSets, w.closedCellSets,
            .active r.openCellSets r.closedCellSets⟩
            (.reconcile a.openCellSets a.closedCellSets)).openCellSets
    ∧ (completeJobCore outcomes a em w).updatedWarehouse.closedCellSets
        = (ledgerStep ⟨w.openCellSets, w.closedCellSets,
            .active r.openCellSets r.closedCellSets⟩
            (.reconcile a.openCellSets a.closedCellSets)).closedCellSets := by
  simp [completeJobCore, ledgerStep, hok, hres]

/-! ## Helper lemmas on the item machinery -/

theorem itemQty_updateItemQty_self (items : List WarehouseItem)
    (name : String) (d : ℚ) :
    itemQty (updateItemQty items name d) name
      = (itemQty items name).map (fun q => round2 (q + d)) := by
  induction items with
  | nil => simp [updateItemQty, itemQty]
  | cons it rest ih =>
      by_cases h : it.name = name
      · have hstep : updateItemQty (it :: rest) name d
            = { it with quantity := round2 (it.quantity + d) } :: rest := by
          simp [updateItemQty, h]
        rw [hstep]
        simp [itemQty, List.find?_cons, h]
      · have hstep : updateItemQty (it :: rest) name d
            = it :: updateItemQty rest name d := by
          simp [updateItemQty, h]
        rw [hstep]
        simpa [itemQty, List.find?_cons, h] using ih

theorem itemQty_updateItemQty_other (items : List WarehouseItem)
    {name m : String} (hnm : m ≠ name) (d : ℚ) :
    itemQty (updateItemQty items name d) m = itemQty items m := by
  induction items with
  | nil => simp [updateItemQty]
  | cons it rest ih =>
      by_cases h : it.name = name
      · have hstep : updateItemQty (it :: rest) name d
            = { it with quantity := round2 (it.quantity + d) } :: rest := by
          simp [updateItemQty, h]
        rw [hstep]
        have hitm : ¬ it.name = m := fun hc => hnm (hc.symm.trans h)
        simp [itemQty, List.find?_cons, hitm]
      · have hstep : updateItemQty (it :: rest) name d
            = it :: updateItemQty rest name d := by
          simp [updateItemQty, h]
        rw [hstep]
        by_cases hm : it.name = m
        · simp [itemQty, List.find?_cons, hm]
        · simpa [itemQty, List.find?_cons, hm] using ih

/-- Returning an inventory list item-by-item adds, for every warehouse
name, exactly that name's accumulated reserved quantity (under the
two-decimal policy the per-step rounding never distorts it). -/
theorem itemQty_returnItems (items : List WarehouseItem)
    (inv : List InventoryItem) (name : String) (q : ℚ)
    (hq : itemQty items name = some q) (hqc : IsCents q)
    (hinv : ∀ i ∈ inv, IsCents i.quantity) :
    itemQty (returnItems items inv) name = some (q + qtySumI inv name) := by
  induction inv generalizing items q with
  | nil => simpa [returnItems, qtySumI] using hq
  | cons it rest ih =>
      have hit : IsCents it.quantity := hinv it (List.mem_cons_self _ _)
      have hrest : ∀ i ∈ rest, IsCents i.quantity :=
        fun i hi => hinv i (List.mem_cons_of_mem _ hi)
      have hstep : returnItems items (it :: rest)
          = returnItems (updateItemQty items it.name it.quantity) rest := by
        simp [returnItems]
      rw [hstep]
      by_cases h : it.name = name
      · have hq' : itemQty (updateItemQty items it.name it.quantity) name
            = some (q + it.quantity) := by
          rw [h, itemQty_updateItemQty_self, hq]
          simp [round2_eq_self (hqc.add hit)]
        have := ih _ _ hq' (hqc.add hit) hrest
        rw [this, qtySumI]
        simp [h]
        ring
      · have hq' : itemQty (updateItemQty items it.name it.quantity) name
            = some q := by
          rw [itemQty_updateItemQty_other items (fun hc => h hc.symm), hq]
        have := ih _ _ hq' hqc hrest
        rw [this, qtySumI]
        simp [h]

/-- A fold whose step never changes the accumulator is the identity. -/
theorem foldl_const {α β : Type} (f : β → α → β) (l : List α) (b : β)
    (h : ∀ x ∈ l, ∀ acc, f acc x = acc) : l.foldl f b = b := by
  induction l generalizing b with
  | nil => rfl
  | cons x rest ih =>
      rw [List.foldl_cons, h x (List.mem_cons_self _ _)]
      exact ih b (fun y hy acc => h y (List.mem_cons_of_mem _ hy) acc)

/-- When old and new project inventories agree name-by-name, the diff map
is all zeros and the warehouse items are untouched. -/
theorem applyInventoryDiff_eq_self (items : List WarehouseItem)
    (old new : List InventoryItem)
    (h : ∀ name, qtySumI old name = qtySumI new name) :
    applyInventoryDiff items old new = items := by
  unfold applyInventoryDiff
  apply foldl_const
  intro name _ acc
  simp [h name]

theorem mem_mapSet {m : List EstimateRecord} {e x : EstimateRecord}
    (hx : x ∈ mapSet m e) : x = e ∨ x ∈ m := by
  unfold mapSet at hx
  by_cases h : m.any (fun y => y.id = e.id)
  · rw [if_pos h] at hx
    obtain ⟨y, hy, hyx⟩ := List.mem_map.mp hx
    by_cases hid : y.id = e.id
    · left; rw [← hyx, if_pos hid]
    · right; rw [← hyx, if_neg hid]; exact hy
  · rw [if_neg h] at hx
    rcases List.mem_append.mp hx with h1 | h2
    · right; exact h1
    · left; simpa using h2

theorem mapSet_exists_id {m : List EstimateRecord} {e : EstimateRecord}
    {i : String} (hei : e.id = i ∨ ∃ x ∈ m, x.id = i) :
    ∃ x ∈ mapSet m e, x.id = i := by
  unfold mapSet
  by_cases h : m.any (fun y => y.id = e.id)
  · rw [if_pos h]
    rcases hei with hei | ⟨x, hx, hxi⟩
    · have ⟨y, hy, hyid⟩ := List.any_eq_true.mp h
      refine ⟨if y.id = e.id then e else y, List.mem_map.mpr ⟨y, hy, rfl⟩, ?_⟩
      simp only [of_decide_eq_true hyid, if_pos]
      exact hei
    · refine ⟨if x.id = e.id then e else x, List.mem_map.mpr ⟨x, hx, rfl⟩, ?_⟩
      by_cases hxe : x.id = e.id
      · simp only [hxe, if_pos]; rw [← hxe]; exact hxi
      · simp only [hxe, if_neg, ite_false]; exact hxi
  · rw [if_neg h]
    rcases hei with hei | ⟨x, hx, hxi⟩
    · exact ⟨e, List.mem_append.mpr (Or.inr (List.mem_singleton.mpr rfl)), hei⟩
    · exact ⟨x, List.mem_append.mpr (Or.inl hx), hxi⟩

/-- One sync step preserves "every db record with this id is Paid, and one
exists". -/
theorem syncStep_preserves_paid {m : List EstimateRecord}
    {inc : EstimateRecord} {i : String}
    (hall : ∀ x ∈ m, x.id = i → x.status = .paid)
    (hex : ∃ x ∈ m, x.id = i) :
    (∀ x ∈ syncStep m inc, x.id = i → x.status = .paid)
    ∧ ∃ x ∈ syncStep m inc, x.id = i := by
  unfold syncStep
  cases hfind : m.find? (fun x => x.id = inc.id) with
  | some ex =>
      have hexmem : ex ∈ m := List.mem_of_find?_eq_some hfind
      have hexid : ex.id = inc.id := by
        have := List.find?_some hfind
        exact of_decide_eq_true this
      have hmid : (mergeIncoming ex inc).id = inc.id := rfl
      constructor
      · intro x hx hxi
        rcases mem_mapSet hx with rfl | hxm
        · have hexi : ex.id = i := by rw [hexid]; exact hxi
          have hexpaid : ex.status = .paid := hall ex hexmem hexi
          by_cases hp : inc.status = .paid <;>
            simp [mergeIncoming, hexpaid, hp]
        · exact hall x hxm hxi
      · refine mapSet_exists_id (Or.inr hex)
  | none =>
      constructor
      · intro x hx hxi
        rcases mem_mapSet hx with rfl | hxm
        · -- a fresh insert with this id is impossible: a record with id i
          -- exists in m, so find? would have hit it if inc.id = i
          exfalso
          obtain ⟨y, hy, hyi⟩ := hex
          have hne : ¬ (y.id = x.id) := by
            have hnone := List.find?_eq_none.mp hfind y hy
            simpa using hnone
          exact hne (hyi.trans hxi.symm)
        · exact hall x hxm hxi
      · exact mapSet_exists_id (Or.inr hex)

/-- Across a whole bulk sync, a db id whose every record is Paid stays
Paid (list-level form of the terminal-state pin). -/
theorem sync_preserves_paid (db payload : List EstimateRecord) (i : String)
    (hall : ∀ x ∈ db, x.id = i → x.status = .paid)
    (hex : ∃ x ∈ db, x.id = i) :
    ∀ x ∈ syncEstimatesWithLogic db payload, x.id = i → x.status = .paid := by
  unfold syncEstimatesWithLogic
  induction payload generalizing db with
  | nil => exact hall
  | cons inc rest ih =>
      rw [List.foldl_cons]
      obtain ⟨h1, h2⟩ := syncStep_preserves_paid hall hex
      exact ih _ h1 h2

/-! ## Claim theorems -/

/-- C1 (amended): for every estimate and every sequence of
reservation-ledger operations on it — a reserve at work-order
confirmation, then any number of `adjustReservation` edits, releases and
reconciles, with all quantities respecting the two-decimal numeric
policy (and required quantities non-negative) — the net change applied
to the warehouse `openCellSets`/`closedCellSets` counters equals the
negative of the final actuals usage if the estimate was completed, the
negative of the current reserved baseline while the work order is still
active, and zero after a release via hard delete (the release returns
the full reserved baseline). -/
theorem foam_conservation
    (w0Open w0Closed r0Open r0Closed : ℚ) (ops : List LedgerOp)
    (hw0o : IsCents w0Open) (hw0c : IsCents w0Closed)
    (hro : IsCents r0Open) (hro0 : 0 ≤ r0Open)
    (hrc : IsCents r0Closed) (hrc0 : 0 ≤ r0Closed)
    (hops : ∀ op ∈ ops, OpOK op) :
    (runLedger (reserveFoam r0Open r0Closed w0Open w0Closed) ops).openCellSets
        - w0Open
      = -outstandingOpen
          (runLedger (reserveFoam r0Open r0Closed w0Open w0Closed) ops).phase
    ∧ (runLedger (reserveFoam r0Open r0Closed w0Open w0Closed) ops).closedCellSets
        - w0Closed
      = -outstandingClosed
          (runLedger (reserveFoam r0Open r0Closed w0Open w0Closed) ops).phase := by
  have h0 : LedgerInv w0Open w0Closed (reserveFoam r0Open r0Closed w0Open w0Closed) := by
    unfold LedgerInv reserveFoam
    refine ⟨isCents_round2 _, isCents_round2 _, ⟨hro, hro0, hrc, hrc0⟩, ?_, ?_⟩
    · simp only [outstandingOpen]
      exact round2_eq_self (hw0o.sub hro)
    · simp only [outstandingClosed]
      exact round2_eq_self (hw0c.sub hrc)
  obtain ⟨_, _, _, heqo, heqc⟩ := runLedger_inv h0 hops
  constructor
  · rw [heqo]; ring
  · rw [heqc]; ring

/-- C1 witness: reserve 10 open-cell sets against a (100, 50) warehouse,
edit the requirement to 8, complete with actual 9 — the net open-cell
change is −9. -/
theorem foam_conservation_witness :
    ((runLedger (reserveFoam 10 0 100 50)
        [LedgerOp.adjust 8 0, LedgerOp.reconcile 9 0]).openCellSets - 100
      = -outstandingOpen (runLedger (reserveFoam 10 0 100 50)
          [LedgerOp.adjust 8 0, LedgerOp.reconcile 9 0]).phase
    ∧ (runLedger (reserveFoam 10 0 100 50)
        [LedgerOp.adjust 8 0, LedgerOp.reconcile 9 0]).closedCellSets - 50
      = -outstandingClosed (runLedger (reserveFoam 10 0 100 50)
          [LedgerOp.adjust 8 0, LedgerOp.reconcile 9 0]).phase)
    ∧ (runLedger (reserveFoam 10 0 100 50)
        [LedgerOp.adjust 8 0, LedgerOp.reconcile 9 0]).openCellSets = 91 :=
  ⟨foam_conservation 100 50 10 0 [LedgerOp.adjust 8 0, LedgerOp.reconcile 9 0]
      (by norm_num [IsCents]) (by norm_num [IsCents]) (by norm_num [IsCents])
      (by norm_num) (by norm_num [IsCents]) (by norm_num)
      (by
        intro op hop
        simp only [List.mem_cons, List.not_mem_nil, or_false] at hop
        rcases hop with rfl | rfl <;> norm_num [OpOK, IsCents]),
   by norm_num [runLedger, ledgerStep, reserveFoam, round2]⟩

/-- C1 counterexample: a sequence that ends in a release (hard delete of
the active work order) has net foam change 0, not the negative of the
reserved baseline (10) that was in effect at the delete — the release
returns the reservation instead of charging it. -/
theorem foam_conservation_release_cex :
    (reserveFoam 10 0 100 100).phase = LedgerPhase.active 10 0
    ∧ (runLedger (reserveFoam 10 0 100 100) [LedgerOp.release]).openCellSets
        - 100 = 0
    ∧ ((0 : ℚ) ≠ -10) := by
  refine ⟨rfl, ?_, by norm_num⟩
  norm_num [runLedger, ledgerStep, reserveFoam, round2]

/-- C2: on crew completion (successful estimate update), the warehouse
open-cell counter gains `baseline.openCellSets - actuals.openCellSets`
and the closed-cell counter gains
`baseline.closedCellSets - actuals.closedCellSets`, each fixed to two
decimals, where the baseline is `materials.reserved` when present and the
materials snapshot itself otherwise. -/
theorem reconciliation_foam_deltas
    (outcomes : RemoteOutcomes) (hok : outcomes.estimateUpdateOk = true)
    (a : Actuals) (em : MaterialsSnapshot) (w : Warehouse) :
    (completeJobCore outcomes a em w).updatedWarehouse.openCellSets
      = round2 (w.openCellSets +
          ((match em.reserved with
            | some r => r.openCellSets
            | none => em.openCellSets) - a.openCellSets))
    ∧ (completeJobCore outcomes a em w).updatedWarehouse.closedCellSets
      = round2 (w.closedCellSets +
          ((match em.reserved with
            | some r => r.closedCellSets
            | none => em.closedCellSets) - a.closedCellSets)) := by
  simp [completeJobCore, hok]

/-- C2 witness: warehouse at 6.0 open-cell, reserved baseline 4.0, crew
actual 4.5 — the counter becomes 5.5 (the spec's §8 lifecycle scenario),
and the fallback baseline is exercised by a second record without a
reserved snapshot. -/
theorem reconciliation_foam_deltas_witness :
    ((completeJobCore ⟨true, true, true, true⟩ ⟨9 / 2, 0, [], none, "crew"⟩
        ⟨4, 0, [], some ⟨4, 0, []⟩⟩ ⟨6, 10, []⟩).updatedWarehouse.openCellSets
      = round2 (6 + (4 - 9 / 2)))
    ∧ (completeJobCore ⟨true, true, true, true⟩ ⟨9 / 2, 0, [], none, "crew"⟩
        ⟨4, 0, [], some ⟨4, 0, []⟩⟩ ⟨6, 10, []⟩).updatedWarehouse.openCellSets
      = 11 / 2
    ∧ (completeJobCore ⟨true, true, true, true⟩ ⟨9 / 2, 0, [], none, "crew"⟩
        ⟨4, 0, [], none⟩ ⟨6, 10, []⟩).updatedWarehouse.openCellSets
      = round2 (6 + (4 - 9 / 2)) :=
  ⟨(reconciliation_foam_deltas ⟨true, true, true, true⟩ rfl
      ⟨9 / 2, 0, [], none, "crew"⟩ ⟨4, 0, [], some ⟨4, 0, []⟩⟩ ⟨6, 10, []⟩).1,
   by norm_num [completeJobCore, round2],
   (reconciliation_foam_deltas ⟨true, true, true, true⟩ rfl
      ⟨9 / 2, 0, [], none, "crew"⟩ ⟨4, 0, [], none⟩ ⟨6, 10, []⟩).1⟩

/-- C3 (amended): the bulk-sync merge pins exactly the two terminal
states — an existing `Paid` status and an existing `Completed` execution
status always survive the merge; any non-terminal existing status or
execution status is simply overwritten by the incoming record. -/
theorem merge_protects_terminal_states (ex inc : EstimateRecord) :
    (ex.status = .paid → (mergeIncoming ex inc).status = .paid)
    ∧ (ex.executionStatus = .completed →
        (mergeIncoming ex inc).executionStatus = .completed)
    ∧ (ex.status ≠ .paid → (mergeIncoming ex inc).status = inc.status)
    ∧ (ex.executionStatus ≠ .completed →
        (mergeIncoming ex inc).executionStatus = inc.executionStatus) := by
  refine ⟨?_, ?_, ?_, ?_⟩ <;> intro h <;>
    by_cases h2 : inc.status = .paid <;>
    by_cases h4 : inc.executionStatus = .completed <;>
    simp [mergeIncoming, h, h2, h4]

/-- C3 witness: a local record with status Paid merged against an
incoming payload with status Draft stays Paid. -/
theorem merge_protects_terminal_states_witness :
    (mergeIncoming { baseEstimate with status := .paid }
        { baseEstimate with status := .draft }).status = EstimateStatus.paid :=
  (merge_protects_terminal_states { baseEstimate with status := .paid }
      { baseEstimate with status := .draft }).1 rfl

/-- C3 counterexample: an incoming Draft payload overwrites an existing
Invoiced record — a strictly less-advanced incoming status replaces a
more-advanced existing one, so the merge is not monotone below Paid. -/
theorem merge_regresses_invoiced_cex :
    ({ baseEstimate with status := .invoiced } : EstimateRecord).status
        = EstimateStatus.invoiced
    ∧ (mergeIncoming { baseEstimate with status := .invoiced }
        { baseEstimate with status := .draft }).status = EstimateStatus.draft
    ∧ statusRank .draft < statusRank .invoiced := by
  refine ⟨rfl, ?_, by norm_num [statusRank]⟩
  simp [mergeIncoming, baseEstimate]

/-- C4: hard-delete compensation.  Deleting an active (status Work Order,
execution not Completed) work order with a reserved baseline returns
exactly the reserved foam sets and, name by name, the reserved item
quantities; with no reserved baseline it returns only the
`materials.inventory` items and no foam; deleting a completed or
never-sold estimate leaves the warehouse unchanged.  (Quantities are
assumed two-decimal and reserved foam non-negative, as the app maintains.) -/
theorem delete_compensation (e : EstimateRecord) (w : Warehouse) :
    (∀ r, e.materials.reserved = some r →
      e.status = .workOrder → e.executionStatus ≠ .completed →
      IsCents w.openCellSets → IsCents w.closedCellSets →
      IsCents r.openCellSets → 0 ≤ r.openCellSets →
      IsCents r.closedCellSets → 0 ≤ r.closedCellSets →
      (∀ i ∈ r.inventory, IsCents i.quantity) →
      (handleDeleteCore (some e) w).openCellSets
          = w.openCellSets + r.openCellSets
      ∧ (handleDeleteCore (some e) w).closedCellSets
          = w.closedCellSets + r.closedCellSets
      ∧ ∀ name q, itemQty w.items name = some q → IsCents q →
          itemQty (handleDeleteCore (some e) w).items name
            = some (q + qtySumI r.inventory name))
    ∧ (e.materials.reserved = none →
      e.status = .workOrder → e.executionStatus ≠ .completed →
      (∀ i ∈ e.materials.inventory, IsCents i.quantity) →
      (handleDeleteCore (some e) w).openCellSets = w.openCellSets
      ∧ (handleDeleteCore (some e) w).closedCellSets = w.closedCellSets
      ∧ ∀ name q, itemQty w.items name = some q → IsCents q →
          itemQty (handleDeleteCore (some e) w).items name
            = some (q + qtySumI e.materials.inventory name))
    ∧ ((e.status ≠ .workOrder ∨ e.executionStatus = .completed) →
      handleDeleteCore (some e) w = w) := by
  refine ⟨?_, ?_, ?_⟩
  · intro r hres hst hexec hwoc hwcc hroc hro0 hrcc hrc0 hinv
    by_cases hpos : r.openCellSets > 0 ∨ r.closedCellSets > 0
    · have hstep : handleDeleteCore (some e) w
          = { w with
                openCellSets := round2 (w.openCellSets + r.openCellSets),
                closedCellSets := round2 (w.closedCellSets + r.closedCellSets),
                items := returnItems w.items r.inventory } := by
        simp [handleDeleteCore, hst, hexec, hres, hpos]
      refine ⟨?_, ?_, ?_⟩
      · rw [hstep]; exact round2_eq_self (hwoc.add hroc)
      · rw [hstep]; exact round2_eq_self (hwcc.add hrcc)
      · intro name q hq hqc
        rw [hstep]
        exact itemQty_returnItems w.items r.inventory name q hq hqc hinv
    · push_neg at hpos
      have h0o : r.openCellSets = 0 := le_antisymm hpos.1 hro0
      have h0c : r.closedCellSets = 0 := le_antisymm hpos.2 hrc0
      have hstep : handleDeleteCore (some e) w
          = { w with items := returnItems w.items r.inventory } := by
        simp [handleDeleteCore, hst, hexec, hres, h0o, h0c]
      refine ⟨?_, ?_, ?_⟩
      · rw [hstep, h0o]; simp
      · rw [hstep, h0c]; simp
      · intro name q hq hqc
        rw [hstep]
        exact itemQty_returnItems w.items r.inventory name q hq hqc hinv
  · intro hres hst hexec hinv
    have hstep : handleDeleteCore (some e) w
        = { w with items := returnItems w.items e.materials.inventory } := by
      simp [handleDeleteCore, hst, hexec, hres]
    refine ⟨by rw [hstep], by rw [hstep], ?_⟩
    intro name q hq hqc
    rw [hstep]
    exact itemQty_returnItems w.items e.materials.inventory name q hq hqc hinv
  · intro hcase
    rcases hcase with hst | hexec
    · simp [handleDeleteCore, hst]
    · simp [handleDeleteCore, hexec]

/-- C4 witness: the claim's scenario — active work order with reserved
`{openCellSets 5, closedCellSets 2, tape 3}` deleted against warehouse
`{1, 1, tape 0}` yields `{6, 3, tape 3}`. -/
theorem delete_compensation_witness :
    (handleDeleteCore (some cexDeleteEstimate) cexDeleteWarehouse).openCellSets = 6
    ∧ (handleDeleteCore (some cexDeleteEstimate) cexDeleteWarehouse).closedCellSets = 3
    ∧ itemQty (handleDeleteCore (some cexDeleteEstimate) cexDeleteWarehouse).items
        "tape" = some 3 := by
  obtain ⟨h1, h2, h3⟩ :=
    (delete_compensation cexDeleteEstimate cexDeleteWarehouse).1
      ⟨5, 2, [⟨"tape", 3, 0⟩]⟩ rfl rfl (by decide)
      (by norm_num [cexDeleteWarehouse, IsCents])
      (by norm_num [cexDeleteWarehouse, IsCents])
      (by norm_num [IsCents]) (by norm_num)
      (by norm_num [IsCents]) (by norm_num)
      (by
        intro i hi
        simp only [List.mem_singleton] at hi
        subst hi
        norm_num [IsCents])
  refine ⟨?_, ?_, ?_⟩
  · rw [h1]; norm_num [cexDeleteWarehouse]
  · rw [h2]; norm_num [cexDeleteWarehouse]
  · have h4 := h3 "tape" 0 (by simp [cexDeleteWarehouse, itemQty])
      (by norm_num [IsCents])
    rw [h4]
    norm_num [qtySumI]

/-- C5 (amended): re-confirming an estimate already in status Work Order,
Invoiced or Paid produces zero warehouse mutation, provided the required
foam sets are unchanged from the reservation baseline and the required
inventory items are unchanged (name by name) from the estimate's current
`materials` snapshot — the item diff runs against `materials.inventory`,
not against the reservation baseline. -/
theorem reconfirm_zero_mutation
    (customerName : String) (hname : ¬ customerName = "")
    (ex : EstimateRecord)
    (hsold : ex.status = .workOrder ∨ ex.status = .invoiced ∨ ex.status = .paid)
    (results : CalcResults) (inventory : List InventoryItem)
    (hfoam : ∀ r, ex.materials.reserved = some r →
        r.openCellSets = results.openCellSets
        ∧ r.closedCellSets = results.closedCellSets)
    (hinv : ∀ name, qtySumI ex.materials.inventory name = qtySumI inventory name)
    (estimateId : String) (expenses : EstimateExpenses) (w : Warehouse)
    (proceed : Bool) :
    (confirmWorkOrderCore customerName (some ex) estimateId results inventory
        expenses w proceed).map (fun p => (p.1, p.2.isSome))
      = some (w, true) := by
  have hw1 : applyInventoryDiff w.items ex.materials.inventory inventory = w.items :=
    applyInventoryDiff_eq_self _ _ _ hinv
  cases hr : ex.materials.reserved with
  | none =>
      simp [confirmWorkOrderCore, hsold, saveEstimateCore, hname, noExtra, hr, hw1]
  | some r =>
      obtain ⟨hfo, hfc⟩ := hfoam r hr
      simp [confirmWorkOrderCore, hsold, saveEstimateCore, hname, noExtra, hr,
        hw1, hfo, hfc]

/-- C5 witness: re-confirming an active work order with unchanged foam
(5/2) and items (tape 4) leaves the (10, 10, tape 10) warehouse as it
was. -/
theorem reconfirm_zero_mutation_witness :
    (confirmWorkOrderCore "Ann" (some cexReconfirmWO) "e1" ⟨5, 2, 0⟩
        [⟨"tape", 4, 0⟩] ⟨0, none, 0, 0, 0⟩ ⟨10, 10, [⟨"tape", 10, 0⟩]⟩
        true).map (fun p => (p.1, p.2.isSome))
      = some (⟨10, 10, [⟨"tape", 10, 0⟩]⟩, true) :=
  reconfirm_zero_mutation "Ann" (by decide) cexReconfirmWO (Or.inl rfl)
    ⟨5, 2, 0⟩ [⟨"tape", 4, 0⟩]
    (fun r hr => by
      rw [show cexReconfirmWO.materials.reserved
          = some ⟨5, 2, [⟨"tape", 4, 0⟩]⟩ from rfl] at hr
      cases hr
      exact ⟨rfl, rfl⟩)
    (fun _ => rfl) "e1" ⟨0, none, 0, 0, 0⟩ ⟨10, 10, [⟨"tape", 10, 0⟩]⟩ true

/-- C5 counterexample: the claim's hypothesis compares items against the
reservation baseline, but the code diffs against `materials.inventory`.
Re-confirming with items equal to the reservation baseline (tape 3) while
the materials snapshot has drifted to tape 4 mutates the warehouse: tape
moves from 10 to 11. -/
theorem reconfirm_mutates_cex :
    cexReconfirmExisting.materials.reserved = some ⟨5, 2, [⟨"tape", 3, 0⟩]⟩
    ∧ (confirmWorkOrderCore "Ann" (some cexReconfirmExisting) "e1" ⟨5, 2, 0⟩
        [⟨"tape", 3, 0⟩] ⟨0, none, 0, 0, 0⟩ ⟨10, 10, [⟨"tape", 10, 0⟩]⟩ true).map
        (fun p => itemQty p.1.items "tape")
      = some (some 11) := by
  have hA : ("Ann" = "") = False := eq_false (by decide)
  refine ⟨rfl, ?_⟩
  norm_num [confirmWorkOrderCore, saveEstimateCore, noExtra, cexReconfirmExisting,
    baseEstimate, applyInventoryDiff, diffNames, insertName, qtySumI,
    updateItemQty, itemQty, round2, hA]

/-- C6 (amended): chemical cost at the Paid transition.  The Supabase
`markEstimatePaid` always prices the `materials` snapshot quantities,
even when crew actuals exist; only the legacy backend `handleMarkJobPaid`
prefers `actuals` when present and falls back to `materials` otherwise. -/
theorem paid_chem_cost (costs : Costs) (est : EstimateRecord) :
    (markEstimatePaidFinancials costs est).chemicalCost
      = est.materials.openCellSets * costs.openCell
        + est.materials.closedCellSets * costs.closedCell
    ∧ (∀ a, est.actuals = some a →
        (legacyMarkJobPaidFinancials costs est).chemicalCost
          = a.openCellSets * costs.openCell + a.closedCellSets * costs.closedCell)
    ∧ (est.actuals = none →
        (legacyMarkJobPaidFinancials costs est).chemicalCost
          = est.materials.openCellSets * costs.openCell
            + est.materials.closedCellSets * costs.closedCell) := by
  refine ⟨rfl, ?_, ?_⟩
  · intro a ha
    simp [legacyMarkJobPaidFinancials, ha]
  · intro ha
    simp [legacyMarkJobPaidFinancials, ha]

/-- C6 witness: with open-cell cost 2000, the Supabase path prices the
4.0-set materials snapshot while the legacy path prices the 4.5-set crew
actuals of the same estimate. -/
theorem paid_chem_cost_witness :
    (markEstimatePaidFinancials ⟨2000, 2600, 85⟩ cexPaidEstimate).chemicalCost
      = cexPaidEstimate.materials.openCellSets * 2000
        + cexPaidEstimate.materials.closedCellSets * 2600
    ∧ (legacyMarkJobPaidFinancials ⟨2000, 2600, 85⟩ cexPaidEstimate).chemicalCost
      = (9 / 2) * 2000 + 0 * 2600 :=
  ⟨(paid_chem_cost ⟨2000, 2600, 85⟩ cexPaidEstimate).1,
   (paid_chem_cost ⟨2000, 2600, 85⟩ cexPaidEstimate).2.1
     ⟨9 / 2, 0, [], none, "crew"⟩ rfl⟩

/-- C6 counterexample: an estimate with materials 4.0 open-cell sets and
crew actuals 4.5 sets, priced at 2000 per set by `markEstimatePaid`,
yields chemCost 8000 from the materials snapshot — not the 9000 the
actuals-preferring claim (and the spec's §8 scenario) requires. -/
theorem paid_chem_ignores_actuals_cex :
    cexPaidEstimate.actuals.isSome = true
    ∧ (markEstimatePaidFinancials ⟨2000, 2600, 85⟩ cexPaidEstimate).chemicalCost
        = 8000
    ∧ ((8000 : ℚ) ≠ (9 / 2) * 2000) := by
  refine ⟨rfl, ?_, by norm_num⟩
  norm_num [markEstimatePaidFinancials, cexPaidEstimate, baseEstimate]

/-- C7 (amended): completion failure semantics.  The result of
`completeJobInSupabase` depends only on the estimate-update outcome: when
that update fails the function reports failure with the
pre-reconciliation warehouse unchanged, and when it succeeds the function
reports success — regardless of whether the foam-stock update, the
warehouse-item sync or the usage-log insert failed. -/
theorem complete_failure_semantics (o1 o2 : RemoteOutcomes) (a : Actuals)
    (em : MaterialsSnapshot) (w : Warehouse)
    (h : o1.estimateUpdateOk = o2.estimateUpdateOk) :
    completeJobCore o1 a em w = completeJobCore o2 a em w
    ∧ (o1.estimateUpdateOk = false →
        (completeJobCore o1 a em w).success = false
        ∧ (completeJobCore o1 a em w).updatedWarehouse = w)
    ∧ (o1.estimateUpdateOk = true →
        (completeJobCore o1 a em w).success = true) := by
  refine ⟨?_, ?_, ?_⟩
  · unfold completeJobCore
    rw [h]
  · intro hf
    simp [completeJobCore, hf]
  · intro ht
    simp [completeJobCore, ht]

/-- C7 witness: with the estimate update failing, completion reports
failure and hands back the warehouse unchanged. -/
theorem complete_failure_semantics_witness :
    (completeJobCore ⟨false, true, true, true⟩ ⟨5, 0, [], none, "crew"⟩
        ⟨4, 0, [], none⟩ ⟨10, 0, []⟩).success = false
    ∧ (completeJobCore ⟨false, true, true, true⟩ ⟨5, 0, [], none, "crew"⟩
        ⟨4, 0, [], none⟩ ⟨10, 0, []⟩).updatedWarehouse = ⟨10, 0, []⟩ :=
  (complete_failure_semantics ⟨false, true, true, true⟩ ⟨false, true, true, true⟩
    ⟨5, 0, [], none, "crew"⟩ ⟨4, 0, [], none⟩ ⟨10, 0, []⟩ rfl).2.1 rfl

/-- C7 counterexample: the foam-stock persistence call fails
(`foamStockOk = false`), yet completion still reports success and an
adjusted warehouse (open-cell 10 → 9) — the claim's
"any remote persistence call fails ⇒ success = false and warehouse
unchanged" is violated. -/
theorem complete_ignores_downstream_failures_cex :
    (completeJobCore ⟨true, false, false, false⟩ ⟨5, 0, [], none, "crew"⟩
        ⟨4, 0, [], none⟩ ⟨10, 0, []⟩).success = true
    ∧ (completeJobCore ⟨true, false, false, false⟩ ⟨5, 0, [], none, "crew"⟩
        ⟨4, 0, [], none⟩ ⟨10, 0, []⟩).updatedWarehouse.openCellSets = 9
    ∧ ((9 : ℚ) ≠ 10) := by
  refine ⟨rfl, ?_, by norm_num⟩
  norm_num [completeJobCore, round2]

/-- C8 (amended): the reservation/adjustment/deletion/reconciliation paths
fix every counter step to two decimals — the shared step
`Number((counter + delta).toFixed(2))` always lands on an exact cent
value, and alternating `+0.25` / `-0.25` through it 100 times from 0
returns exactly 0.  (The purchase-order receipt path, by contrast, adds
raw quantities: see the counterexample.) -/
theorem ledger_rounding_stability :
    (∀ x d : ℚ, IsCents (fix2Step x d))
    ∧ Nat.iterate (fun x => fix2Step (fix2Step x (1 / 4)) (-(1 / 4))) 50 0 = 0 := by
  constructor
  · intro x d
    exact isCents_round2 _
  · have hstep : ∀ x : ℚ, IsCents x →
        fix2Step (fix2Step x (1 / 4)) (-(1 / 4)) = x := by
      intro x hx
      have h4 : IsCents (1 / 4 : ℚ) := by norm_num [IsCents]
      unfold fix2Step
      rw [round2_eq_self (hx.add h4)]
      have hx' : x + 1 / 4 + -(1 / 4) = x := by ring
      rw [hx']
      exact round2_eq_self hx
    have hiter : ∀ n : ℕ,
        Nat.iterate (fun x => fix2Step (fix2Step x (1 / 4)) (-(1 / 4))) n 0 = 0 := by
      intro n
      induction n with
      | zero => rfl
      | succ k ih =>
          rw [Function.iterate_succ_apply', ih]
          exact hstep 0 (by norm_num [IsCents])
    exact hiter 50

/-- C8 counterexample: purchase-order receipt adds raw quantities to the
foam counters with no two-decimal fixing — receiving 0.005 open-cell
sets leaves the counter at 0.005, which is not an exact two-decimal
value. -/
theorem po_receipt_unrounded_cex :
    (createPurchaseOrderWarehouse ⟨0, 0, []⟩
        [⟨POItemType.openCell, none, 1 / 200⟩]).openCellSets = 1 / 200
    ∧ ¬ IsCents (1 / 200 : ℚ) := by
  constructor
  · norm_num [createPurchaseOrderWarehouse]
  · norm_num [IsCents]

/-- C9 (amended): the crew gate covers only the debounced auto-sync — for
a crew session the auto-sync path never schedules the bulk push, but
`handleManualSync` (wired to the crew dashboard's sync action) performs
the full Supabase push for any session with a company id, crew included. -/
theorem crew_push_gates (s : Session) (hcrew : s.role = .crew) :
    (∀ isLoading isInitialized stateChanged,
        autoSyncSchedulesPush isLoading isInitialized (some s) stateChanged = false)
    ∧ (∀ cid, s.companyId = some cid →
        manualSyncPush (some s) = some .supabaseFull) := by
  constructor
  · intro isLoading isInitialized stateChanged
    unfold autoSyncSchedulesPush
    by_cases h1 : isLoading = true ∨ isInitialized = false
    · simp [h1]
    · by_cases h2 : s.spreadsheetId = none ∧ s.companyId = none
      · simp [h1, h2]
      · simp [h1, h2, hcrew]
  · intro cid hc
    simp [manualSyncPush, hc]

/-- C9 witness: a crew session with a company id — the auto-sync gate
blocks the debounced push, while the manual path still pushes the full
dataset. -/
theorem crew_push_gates_witness :
    autoSyncSchedulesPush false true (some ⟨some "company-1", none, .crew⟩) true
        = false
    ∧ manualSyncPush (some ⟨some "company-1", none, .crew⟩)
        = some PushPath.supabaseFull :=
  ⟨(crew_push_gates ⟨some "company-1", none, .crew⟩ rfl).1 false true true,
   (crew_push_gates ⟨some "company-1", none, .crew⟩ rfl).2 "company-1" rfl⟩

/-- C9 counterexample: the claim says no push path ever uploads the full
working set from a crew session, but `handleManualSync` has no role gate:
a crew session with a company id performs the full Supabase push. -/
theorem crew_manual_push_cex :
    manualSyncPush (some ⟨some "company-1", none, .crew⟩)
        = some PushPath.supabaseFull
    ∧ manualSyncPush (some ⟨some "company-1", none, .crew⟩) ≠ none := by
  exact ⟨rfl, by simp [manualSyncPush]⟩

/-- C10: saving an existing estimate with an `extraData` override that
does not supply `executionStatus`, `actuals`, `financials` or
`workOrderSheetUrl` carries those four fields over from the existing
record unchanged. -/
theorem save_preserves_crew_fields
    (customerName : String) (hname : ¬ customerName = "")
    (ex : EstimateRecord) (estimateId : String) (results : CalcResults)
    (inventory : List InventoryItem) (expenses : EstimateExpenses)
    (w : Warehouse) (targetStatus : Option EstimateStatus) (extra : ExtraData)
    (hexe : extra.executionStatus = none) (hact : extra.actuals = none)
    (hfin : extra.financials = none) (hurl : extra.workOrderSheetUrl = none) :
    (saveEstimateCore customerName (some ex) estimateId results inventory
        expenses w targetStatus extra).map
        (fun p => (p.2.executionStatus, p.2.actuals, p.2.financials,
          p.2.workOrderSheetUrl))
      = some (ex.executionStatus, ex.actuals, ex.financials,
          ex.workOrderSheetUrl) := by
  simp [saveEstimateCore, hname, hexe, hact, hfin, hurl]

/-- C10 witness: an office edit (new results/inventory, no override of the
crew fields) keeps an in-progress record's execution status, actuals,
financials and work-order sheet URL. -/
theorem save_preserves_crew_fields_witness :
    (saveEstimateCore "Ann" (some cexFramedEstimate) "e1" ⟨3, 1, 500⟩ []
        ⟨0, none, 0, 0, 0⟩ ⟨10, 10, []⟩ none noExtra).map
        (fun p => (p.2.executionStatus, p.2.actuals, p.2.financials,
          p.2.workOrderSheetUrl))
      = some (cexFramedEstimate.executionStatus, cexFramedEstimate.actuals,
          cexFramedEstimate.financials, cexFramedEstimate.workOrderSheetUrl) :=
  save_preserves_crew_fields "Ann" (by decide) cexFramedEstimate "e1" ⟨3, 1, 500⟩
    [] ⟨0, none, 0, 0, 0⟩ ⟨10, 10, []⟩ none noExtra rfl rfl rfl rfl

end RFE
